import Mathlib

/-!
Verification development for the BINA-studio editor core (`app.js`).

The source is modelled shallowly: strings are `List Char`, the JS regex
replacement passes are implemented as dedicated scanners that follow the
backtracking semantics of each concrete pattern, and the tab/editor state
mutations become pure functions on an explicit state record.

Replacement drivers take a fuel argument so that recursion is structural
(each scanning step consumes at least one character, so fuel equal to the
input length plus one always suffices; the fuel-exhausted branch returns
the remaining text unchanged and is never reached on the inputs used).
-/

namespace Bina

/-- Characters counted as word characters by the JS regex `\b` and `\w`
(ASCII letters, digits, underscore). -/
def isWordChar (c : Char) : Bool :=
  (('a' ≤ c && c ≤ 'z') || ('A' ≤ c && c ≤ 'Z') || ('0' ≤ c && c ≤ '9') || c = '_')

/-- ASCII decimal digit, the JS regex `\d` (non-unicode mode). -/
def isDigitChar (c : Char) : Bool :=
  ('0' ≤ c && c ≤ '9')

/-- Whitespace matched by the JS regex `\s`, restricted to its ASCII part
(space, tab, newline, carriage return, vertical tab, form feed); the
development only evaluates the highlighters on ASCII inputs. -/
def isSpaceJS (c : Char) : Bool :=
  (c = ' ' || c = '\t' || c = '\n' || c = '\r' || c = '\x0b' || c = '\x0c')

/-- Does the second list start with the first one? -/
def listStartsWith : List Char → List Char → Bool
  | [], _ => true
  | _ :: _, [] => false
  | p :: ps, c :: cs => p = c && listStartsWith ps cs

/-- Does `pat` occur as a contiguous subsequence of `s`? -/
def occursIn (pat : List Char) : List Char → Bool
  | [] => listStartsWith pat []
  | c :: cs => listStartsWith pat (c :: cs) || occursIn pat cs

/-- Split `s` around the first occurrence of `pat`: returns the text before
the occurrence and the text after it.  This realises the lazy regex idiom
`[\s\S]*?` followed by a literal. -/
def splitAtSub (pat : List Char) : List Char → Option (List Char × List Char)
  | [] => if pat.isEmpty then some ([], []) else none
  | c :: cs =>
    if listStartsWith pat (c :: cs) then some ([], (c :: cs).drop pat.length)
    else (splitAtSub pat cs).map (fun p => (c :: p.1, p.2))

/-- Number of occurrences of a character in a list. -/
def countChar (c : Char) (s : List Char) : Nat :=
  s.foldr (fun a n => if a = c then n + 1 else n) 0

/-- Global single-character replacement, one JS `s.replace(/c/g, rep)` pass. -/
def replaceCharBy (c : Char) (rep : List Char) (s : List Char) : List Char :=
  s.foldr (fun a acc => if a = c then rep ++ acc else a :: acc) []

/-- Source `escapeHtml` (app.js line 205): three sequential global
replacements, `&` → `&amp;`, then `<` → `&lt;`, then `>` → `&gt;`. -/
def escapeHtmlL (s : List Char) : List Char :=
  replaceCharBy '>' "&gt;".data
    (replaceCharBy '<' "&lt;".data
      (replaceCharBy '&' "&amp;".data s))

/-- Opening span tag for a token class, as inserted by the highlighters. -/
def spanOpen (cls : List Char) : List Char :=
  "<span class=\"".data ++ cls ++ "\">".data

/-- Closing span tag inserted by the highlighters. -/
def spanClose : List Char := "</span>".data

/-- Wrap text in a token span, the shape of every replacement template. -/
def spanWrap (cls : List Char) (m : List Char) : List Char :=
  spanOpen cls ++ m ++ spanClose

/-- Word-character status of the position following a match, used by the
scan driver to decide `\b` at the continuation point (the JS engine keeps
matching against the original text, so the context char is the last char
of the matched source text). -/
def wordAfter (m : List Char) (prev : Bool) : Bool :=
  match m.getLast? with
  | some c => isWordChar c
  | none => prev

/-- Scan driver realising one JS `String.replace(/pat/g, rep)` pass.
`matchAt prevWord pos s` attempts a match at the current position and, on
success, returns the consumed source text, the replacement text, and the
rest of the input.  On a match the driver emits the replacement and
continues after the consumed text (the JS `lastIndex` rule); otherwise it
emits one character and advances.  `pos` is the absolute offset in the
pass input, made available because one HTML replacement callback receives
the match offset as an argument. -/
def runPass (matchAt : Bool → Nat → List Char → Option (List Char × List Char × List Char)) :
    Nat → Bool → Nat → List Char → List Char
  | 0, _, _, s => s
  | _ + 1, _, _, [] => []
  | fuel + 1, prevWord, pos, c :: rest =>
    match matchAt prevWord pos (c :: rest) with
    | some (m, repl, r) =>
      repl ++ runPass matchAt fuel (wordAfter m prevWord) (pos + m.length) r
    | none => c :: runPass matchAt fuel (isWordChar c) (pos + 1) rest

/-- Run a pass with the standard initial state: full fuel, no preceding
word character, offset zero. -/
def applyPass (matchAt : Bool → Nat → List Char → Option (List Char × List Char × List Char))
    (s : List Char) : List Char :=
  runPass matchAt (s.length + 1) false 0 s

/-- Body of the JS string regex `(['"`])((?:\\.|(?!\1).)*)\1` starting
after the opening quote `q`: a depth-first search in the order of the
pattern (the greedy star tries another unit before closing; within a unit
the alternative `\\.` is tried before `(?!\1).`; the dot of either
alternative never matches a newline).  Returns the body and the rest of
the input after the closing quote.  The fuel argument only serves to make
the search structurally recursive; each recursive call consumes at least
one character, so fuel equal to the input length always suffices. -/
def jsStrBody (q : Char) : Nat → List Char → Option (List Char × List Char)
  | 0, _ => none
  | _ + 1, [] => none
  | fuel + 1, c :: rest =>
    if c = q then some ([], rest)
    else if c = '\n' then none
    else if c = '\\' then
      match rest with
      | [] => none
      | d :: rest2 =>
        if d = '\n' then
          (jsStrBody q fuel rest).map fun p => (c :: p.1, p.2)
        else
          match jsStrBody q fuel rest2 with
          | some p => some (c :: d :: p.1, p.2)
          | none => (jsStrBody q fuel rest).map fun p => (c :: p.1, p.2)
    else (jsStrBody q fuel rest).map fun p => (c :: p.1, p.2)

/-- Matcher for the JS comment pass `(\/\*[\s\S]*?\*\/|\/\/.*$)` (flags
`gm`): a block comment up to the first `*/`, or a line comment up to the
end of its line (multiline `$`).  The replacement wraps `$1`, that is the
whole match, in a comment span. -/
def jsCommentAt (s : List Char) : Option (List Char × List Char × List Char) :=
  if listStartsWith "/*".data s then
    match splitAtSub "*/".data (s.drop 2) with
    | some (body, rest) =>
      let m := "/*".data ++ body ++ "*/".data
      some (m, spanWrap "token-comment".data m, rest)
    | none => none
  else if listStartsWith "//".data s then
    let body := (s.drop 2).takeWhile (· ≠ '\n')
    some ("//".data ++ body, spanWrap "token-comment".data ("//".data ++ body),
      (s.drop 2).dropWhile (· ≠ '\n'))
  else none

/-- Matcher for the JS string pass `(['"`])((?:\\.|(?!\1).)*)\1`: an
opening quote (single, double or backtick), an escape-aware body, and the
matching closing quote.  The replacement wraps the whole match `$&`. -/
def jsStringAt (s : List Char) : Option (List Char × List Char × List Char) :=
  match s with
  | [] => none
  | c :: rest =>
    if c = '\'' || c = '"' || c = Char.ofNat 96 then
      match jsStrBody c (rest.length + 1) rest with
      | some (body, r) =>
        let m := c :: body ++ [c]
        some (m, spanWrap "token-string".data m, r)
      | none => none
    else none

/-- Does a word boundary hold between a word character and the front of
`r`?  Realises the trailing `\b` of the number and keyword patterns. -/
def noWordAhead : List Char → Bool
  | [] => true
  | c :: _ => !isWordChar c

/-- Matcher for the JS number pass `\b(\d+(\.\d+)?)\b`: a maximal digit
run, an optional fraction (tried greedily and dropped if the trailing
boundary fails after it), with word boundaries on both sides.  The
replacement wraps `$1`, the whole matched number. -/
def jsNumberAt (prevWord : Bool) (s : List Char) : Option (List Char × List Char × List Char) :=
  if prevWord then none
  else
    let ds := s.takeWhile isDigitChar
    if ds.isEmpty then none
    else
      let r1 := s.drop ds.length
      let withFrac :=
        match r1 with
        | '.' :: r2 =>
          let fs := r2.takeWhile isDigitChar
          if fs.isEmpty then none
          else
            let r3 := r2.drop fs.length
            if noWordAhead r3 then some (ds ++ '.' :: fs, r3) else none
        | _ => none
      match withFrac with
      | some (m, r) => some (m, spanWrap "token-number".data m, r)
      | none =>
        if noWordAhead r1 then some (ds, spanWrap "token-number".data ds, r1) else none

/-- The keyword alternatives of the JS keyword pass, in source order. -/
def jsKeywords : List (List Char) :=
  ["const", "let", "var", "function", "return", "if", "else", "for",
   "while", "switch", "case", "break", "new", "class", "extends",
   "import", "from", "export", "default", "try", "catch"].map String.data

/-- Matcher for the JS keyword pass `\b(const|let|...|catch)\b`: the
first alternative that matches at the position and is followed by a word
boundary (every alternative begins with a word character, so the leading
`\b` is the `prevWord` check).  The replacement wraps `$1`. -/
def jsKeywordAt (prevWord : Bool) (s : List Char) : Option (List Char × List Char × List Char) :=
  if prevWord then none
  else
    match jsKeywords.find? (fun kw => listStartsWith kw s && noWordAhead (s.drop kw.length)) with
    | some kw => some (kw, spanWrap "token-keyword".data kw, s.drop kw.length)
    | none => none

/-- Source `highlightJS` (app.js lines 209-221): escape the input, then
run the four global replacement passes in order — comments, strings,
numbers, keywords — each over the previous pass's output. -/
def highlightJSL (code : List Char) : List Char :=
  let o1 := applyPass (fun _ _ s => jsCommentAt s) (escapeHtmlL code)
  let o2 := applyPass (fun _ _ s => jsStringAt s) o1
  let o3 := applyPass (fun p _ s => jsNumberAt p s) o2
  applyPass (fun p _ s => jsKeywordAt p s) o3

/-- String-level wrapper of `highlightJSL`. -/
def highlightJS (code : String) : String := ⟨highlightJSL code.data⟩

/-- Character class `[A-Za-z0-9\-_]` of the CSS selector pattern. -/
def isCssTagChar (c : Char) : Bool :=
  (('a' ≤ c && c ≤ 'z') || ('A' ≤ c && c ≤ 'Z') || ('0' ≤ c && c ≤ '9') || c = '-' || c = '_')

/-- Character class `[a-z-]` of the CSS property-name pattern. -/
def isCssPropChar (c : Char) : Bool :=
  (('a' ≤ c && c ≤ 'z') || c = '-')

/-- Character class `[^;}\n]` of the CSS value pattern. -/
def isCssValChar (c : Char) : Bool :=
  (!(c = ';') && !(c = Char.ofNat 125) && !(c = '\n'))

/-- Lookahead `(?=\s*\{)`: whitespace then an opening brace. -/
def lookaheadBrace (r : List Char) : Bool :=
  listStartsWith [Char.ofNat 123] (r.dropWhile isSpaceJS)

/-- Lookahead `(?=\s*:)`: whitespace then a colon. -/
def lookaheadColon (r : List Char) : Bool :=
  listStartsWith [':'] (r.dropWhile isSpaceJS)

/-- Matcher for the CSS comment pass (app.js line 226).  The source text
is `out.replace(/\/\*[\s\S]*?\*\/g, '<span class="token-comment">$&</span>')`:
the `\/` before `g` does not close the regex literal, so the intended
flag `g` is part of the pattern — the terminator the pattern demands is
the literal text `*/g`.  (As written the line is not even lexically
well-formed JavaScript — the literal only closes at the `/` inside the
replacement string, leaving invalid flags — the spec records this
malformed terminator as a known quirk to reproduce, which is what this
matcher does.) -/
def cssCommentAt (s : List Char) : Option (List Char × List Char × List Char) :=
  if listStartsWith "/*".data s then
    match splitAtSub "*/g".data (s.drop 2) with
    | some (body, rest) =>
      let m := "/*".data ++ body ++ "*/g".data
      some (m, spanWrap "token-comment".data m, rest)
    | none => none
  else none

/-- Matcher for the CSS selector pass `([.#]?[A-Za-z0-9\-_]+)(?=\s*\{)`:
an optional `.` or `#`, a maximal run of selector characters, and a
lookahead for whitespace then `{` (the lookahead is not consumed).
Dropping the optional prefix or shortening the run cannot rescue a failed
lookahead, since the following character would then be a selector
character, which is neither whitespace nor `{`. -/
def cssTagAt (s : List Char) : Option (List Char × List Char × List Char) :=
  match s with
  | [] => none
  | c :: rest =>
    if c = '.' || c = '#' then
      let run := rest.takeWhile isCssTagChar
      if run.isEmpty then none
      else
        let r := rest.drop run.length
        if lookaheadBrace r then some (c :: run, spanWrap "token-tag".data (c :: run), r)
        else none
    else
      let run := s.takeWhile isCssTagChar
      if run.isEmpty then none
      else
        let r := s.drop run.length
        if lookaheadBrace r then some (run, spanWrap "token-tag".data run, r)
        else none

/-- Matcher for the CSS property pass `([a-z-]+)(?=\s*:)`: a maximal run
of lowercase letters and hyphens with a lookahead for whitespace then a
colon. -/
def cssPropAt (s : List Char) : Option (List Char × List Char × List Char) :=
  let run := s.takeWhile isCssPropChar
  if run.isEmpty then none
  else
    let r := s.drop run.length
    if lookaheadColon r then some (run, spanWrap "token-attr".data run, r)
    else none

/-- Replacement of the CSS value pass: the callback discards the match
and produces a colon, one space, and a string span around the re-escaped
group. -/
def cssValueRepl (p : List Char) : List Char :=
  ": ".data ++ spanOpen "token-string".data ++ escapeHtmlL p ++ spanClose

/-- Matcher for the CSS value pass `:\s*([^;}\n]+)`: a colon, greedy
whitespace, then at least one character other than `;`, `}`, `\n`.  When
the group would be empty the greedy star hands back trailing whitespace
characters one at a time; a handed-back character other than a newline is
itself a valid value character and the character after it is a stopper,
so the first non-newline whitespace character from the end of the run
becomes the whole group. -/
def cssValueAt (s : List Char) : Option (List Char × List Char × List Char) :=
  match s with
  | ':' :: rest =>
    let ws := rest.takeWhile isSpaceJS
    let r2 := rest.drop ws.length
    let p := r2.takeWhile isCssValChar
    if !p.isEmpty then
      some (':' :: ws ++ p, cssValueRepl p, r2.drop p.length)
    else
      match ws.reverse.dropWhile (· = '\n') with
      | [] => none
      | c :: wsRevRest =>
        let nl := (ws.reverse.takeWhile (· = '\n')).length
        some (':' :: (wsRevRest.reverse ++ [c]), cssValueRepl [c],
          List.replicate nl '\n' ++ r2)
  | _ => none

/-- Unit alternatives of the CSS unit pass, in source order. -/
def cssUnits : List (List Char) := ["px", "em", "rem", "%"].map String.data

/-- Matcher for the CSS unit pass `(\d+)(px|em|rem|%)`: a maximal digit
run followed by a unit; the replacement `$1</span>$2`-style template
leaves the unit outside the number span. -/
def cssUnitAt (s : List Char) : Option (List Char × List Char × List Char) :=
  let ds := s.takeWhile isDigitChar
  if ds.isEmpty then none
  else
    let r := s.drop ds.length
    match cssUnits.find? (fun u => listStartsWith u r) with
    | some u => some (ds ++ u, spanWrap "token-number".data ds ++ u, r.drop u.length)
    | none => none

/-- Source `highlightCSS` (app.js lines 223-233): escape the input, then
run the five global replacement passes in order — comments (with the
malformed `*/g` terminator), selectors, property names, values, numeric
units. -/
def highlightCSSL (code : List Char) : List Char :=
  let o1 := applyPass (fun _ _ s => cssCommentAt s) (escapeHtmlL code)
  let o2 := applyPass (fun _ _ s => cssTagAt s) o1
  let o3 := applyPass (fun _ _ s => cssPropAt s) o2
  let o4 := applyPass (fun _ _ s => cssValueAt s) o3
  applyPass (fun _ _ s => cssUnitAt s) o4

/-- String-level wrapper of `highlightCSSL`. -/
def highlightCSS (code : String) : String := ⟨highlightCSSL code.data⟩

/-- Character class `[a-zA-Z0-9\-]` of the HTML tag-name pattern. -/
def isHtmlNameChar (c : Char) : Bool :=
  (('a' ≤ c && c ≤ 'z') || ('A' ≤ c && c ≤ 'Z') || ('0' ≤ c && c ≤ '9') || c = '-')

/-- Character class `[a-zA-Z-:]` of the HTML attribute-name pattern. -/
def isHtmlAttrChar (c : Char) : Bool :=
  (('a' ≤ c && c ≤ 'z') || ('A' ≤ c && c ≤ 'Z') || c = '-' || c = ':')

/-- Matcher for the HTML comment pass `(&lt;!--[\s\S]*?--&gt;)`: the
escaped delimiters around a lazy body. -/
def htmlCommentAt (s : List Char) : Option (List Char × List Char × List Char) :=
  if listStartsWith "&lt;!--".data s then
    match splitAtSub "--&gt;".data (s.drop 7) with
    | some (body, rest) =>
      let m := "&lt;!--".data ++ body ++ "--&gt;".data
      some (m, spanWrap "token-comment".data m, rest)
    | none => none
  else none

/-- Matcher for the inner attribute replacement
`([a-zA-Z-:]+)(="[^"]*")?`: an attribute-name run with an optional quoted
value; when the optional group is absent the `$2` of the template is
empty. -/
def htmlAttrAt (s : List Char) : Option (List Char × List Char × List Char) :=
  let run := s.takeWhile isHtmlAttrChar
  if run.isEmpty then none
  else
    let r := s.drop run.length
    let opt : Option (List Char × List Char) :=
      match r with
      | '=' :: '"' :: r2 =>
        let v := r2.takeWhile (· ≠ '"')
        match r2.drop v.length with
        | '"' :: r3 => some ('=' :: '"' :: (v ++ ['"']), r3)
        | _ => none
      | _ => none
    match opt with
    | some (g2, r3) => some (run ++ g2, spanWrap "token-attr".data run ++ g2, r3)
    | none => some (run, spanWrap "token-attr".data run, r)

/-- Matcher for the HTML tag pass
`(&lt;\/?[a-zA-Z0-9\-]+)([^&]*?)(&gt;)` with its function replacement.
The callback is declared as `(m, p1, tag, attrs, p4)`, so `tag` is bound
to the second group (the attribute text), `attrs` to the third group
(always the literal `&gt;`), and `p4` to the numeric match offset; the
produced text is `p1`, a tag span around the attribute text, the result
of the attribute replacement applied to `&gt;`, and the decimal offset —
faithfully reproducing the off-by-one parameter list of the source. -/
def htmlTagAt (pos : Nat) (s : List Char) : Option (List Char × List Char × List Char) :=
  if listStartsWith "&lt;".data s then
    let afterLt := s.drop 4
    let (slash, afterSlash) :=
      match afterLt with
      | '/' :: r => (['/'], r)
      | _ => (([] : List Char), afterLt)
    let name := afterSlash.takeWhile isHtmlNameChar
    if name.isEmpty then none
    else
      let r1 := afterSlash.drop name.length
      let g2 := r1.takeWhile (· ≠ '&')
      let r2 := r1.drop g2.length
      if listStartsWith "&gt;".data r2 then
        let g1 := "&lt;".data ++ slash ++ name
        let attrsHtml := applyPass (fun _ _ t => htmlAttrAt t) "&gt;".data
        some (g1 ++ g2 ++ "&gt;".data,
          g1 ++ spanWrap "token-tag".data g2 ++ attrsHtml ++ (Nat.repr pos).data,
          r2.drop 4)
      else none
  else none

/-- Matcher for the HTML script pass
`(&lt;script[\s\S]*?&gt;)([\s\S]*?)(&lt;\/script&gt;)`: the opening part
runs to the first `&gt;` and the body to the first `&lt;/script&gt;`
after it (if none exists the match fails — a later `&gt;` would only
search a smaller suffix).  The callback re-escapes the body and wraps it
in a string span, keeping both delimiters. -/
def htmlScriptAt (s : List Char) : Option (List Char × List Char × List Char) :=
  if listStartsWith "&lt;script".data s then
    match splitAtSub "&gt;".data (s.drop 10) with
    | some (mid, afterGt) =>
      let a := "&lt;script".data ++ mid ++ "&gt;".data
      match splitAtSub "&lt;/script&gt;".data afterGt with
      | some (b, rest) =>
        some (a ++ b ++ "&lt;/script&gt;".data,
          a ++ spanOpen "token-string".data ++ escapeHtmlL b ++ spanClose
            ++ "&lt;/script&gt;".data,
          rest)
      | none => none
    | none => none
  else none

/-- Source `highlightHTML` (app.js lines 235-247): escape the input, then
the comment pass, the tag pass (whose replacement uses the match offset),
and the script pass. -/
def highlightHTMLL (code : List Char) : List Char :=
  let o1 := applyPass (fun _ _ s => htmlCommentAt s) (escapeHtmlL code)
  let o2 := applyPass (fun _ p s => htmlTagAt p s) o1
  applyPass (fun _ _ s => htmlScriptAt s) o2

/-- String-level wrapper of `highlightHTMLL`. -/
def highlightHTML (code : String) : String := ⟨highlightHTMLL code.data⟩

/-- Source `highlightByMode` (app.js lines 250-256): dispatch on the
language tag, falling back to plain HTML escaping. -/
def highlightByModeL (code : List Char) (mode : String) : List Char :=
  if mode = "js" then highlightJSL code
  else if mode = "css" then highlightCSSL code
  else if mode = "html" then highlightHTMLL code
  else escapeHtmlL code

/-- String-level wrapper of `highlightByModeL`. -/
def highlightByMode (code : String) (mode : String) : String :=
  ⟨highlightByModeL code.data mode⟩

/-- The span-tag fragments the highlighters insert: one opening tag per
token class and the shared closing tag. -/
def spanTagTemplates : List (List Char) :=
  (["token-comment", "token-string", "token-number", "token-keyword",
    "token-tag", "token-attr"].map (fun c => spanOpen c.data)) ++ [spanClose]

/-- Remove every occurrence of an inserted span tag, scanning left to
right: text `outside the span tags inserted by the highlighter` is what
this scan keeps.  Fuel is structural plumbing as in `runPass`. -/
def stripSpanTags : Nat → List Char → List Char
  | 0, s => s
  | _ + 1, [] => []
  | fuel + 1, c :: rest =>
    match spanTagTemplates.find? (fun t => listStartsWith t (c :: rest)) with
    | some t => stripSpanTags fuel ((c :: rest).drop t.length)
    | none => c :: stripSpanTags fuel rest

/-- Run `stripSpanTags` with sufficient fuel. -/
def stripSpans (s : List Char) : List Char := stripSpanTags (s.length + 1) s

/-- An open tab (app.js line 62 and `createTab`): identity, display name,
language tag and current content. -/
structure Tab where
  id : String
  name : String
  language : String
  content : String
deriving Repr, DecidableEq

/-- A file node as consumed by tab creation (`createTab` reads `name`,
`language` and `content`).  `language?` and `content?` are `none` when the
corresponding property is absent or empty, modelling the `||` defaults of
`fileNode.language || detectLanguage(...)` and `fileNode.content || ''`. -/
structure FileNode where
  name : String
  language? : Option String
  content? : Option String
deriving Repr, DecidableEq

/-- The mutable editor state: the open tab list and active id (app.js
lines 62-63) together with the parts of the view the claims observe — the
text surface value, the status-bar file label and the status-bar mode
label.  The gutter is a derived view (`gutterLineCount`). -/
structure EditorState where
  openTabs : List Tab
  activeTabId : Option String
  editorValue : List Char
  statusFile : String
  statusMode : String
deriving Repr, DecidableEq

/-- Does `s` end with `pat`? -/
def endsWithL (pat : String) (s : String) : Bool :=
  decide (pat.data.length ≤ s.data.length) &&
    decide (s.data.drop (s.data.length - pat.data.length) = pat.data)

/-- Source `detectLanguage` (app.js lines 71-78); an empty name is falsy
in JS, hence plaintext. -/
def detectLanguage (name : String) : String :=
  if name.isEmpty then "plaintext"
  else if endsWithL ".html" name || endsWithL ".htm" name then "html"
  else if endsWithL ".css" name then "css"
  else if endsWithL ".js" name then "js"
  else if endsWithL ".md" name then "md"
  else "plaintext"

/-- ASCII uppercasing, the `toUpperCase()` of the status-mode label. -/
def upperAscii (s : String) : String := ⟨s.data.map Char.toUpper⟩

/-- Source `loadTabContent` (app.js lines 187-199) restricted to the
state the claims observe: the text surface takes the tab content, the
status labels take the tab's language (uppercased) and name.  The
deferred highlight recompute and focus timer are view glue outside this
state. -/
def loadTabContent (tab : Tab) (st : EditorState) : EditorState :=
  { st with
    editorValue := tab.content.data
    statusMode := upperAscii tab.language
    statusFile := tab.name }

/-- Source `createTab` (app.js lines 132-139): build a tab from the node
(the fresh opaque id `uid(...)` is passed in as `fresh`), append it, make
it active, load it. -/
def createTab (fresh : String) (st : EditorState) (node : FileNode) : EditorState :=
  let tab : Tab :=
    { id := fresh, name := node.name,
      language := node.language?.getD (detectLanguage node.name),
      content := node.content?.getD "" }
  loadTabContent tab { st with openTabs := st.openTabs ++ [tab], activeTabId := some fresh }

/-- Source `openFileTab` (app.js lines 141-148): if a tab with the node's
name is already open, activate and load it; otherwise create a tab. -/
def openFileTab (fresh : String) (st : EditorState) (node : FileNode) : EditorState :=
  match st.openTabs.find? (fun t => t.name = node.name) with
  | some existing => loadTabContent existing { st with activeTabId := some existing.id }
  | none => createTab fresh st node

/-- Source `closeTab` (app.js lines 171-182): remove the tab at the first
index whose id matches (a missing id returns the state unchanged).  If
the closed tab was active, the new active tab is `openTabs[idx-1]` after
the splice (which in JS is `undefined` when `idx` is `0`), else the new
`openTabs[0]`, else none; the chosen tab is loaded, and with no tab left
the surface is cleared and the status set to `No file` / `Plain Text`. -/
def closeTab (st : EditorState) (id : String) : EditorState :=
  match st.openTabs.findIdx? (fun t => t.id = id) with
  | none => st
  | some idx =>
    let tabs' := st.openTabs.eraseIdx idx
    if st.activeTabId = some id then
      let newActive : Option String :=
        match (if idx = 0 then none else tabs'[idx - 1]?) with
        | some t => some t.id
        | none =>
          match tabs'[0]? with
          | some t => some t.id
          | none => none
      match newActive with
      | some aid =>
        match tabs'.find? (fun t => t.id = aid) with
        | some t => loadTabContent t { st with openTabs := tabs', activeTabId := some aid }
        | none => { st with openTabs := tabs', activeTabId := some aid }
      | none =>
        { st with
          openTabs := tabs'
          activeTabId := none
          editorValue := []
          statusFile := "No file"
          statusMode := "Plain Text" }
    else { st with openTabs := tabs' }

/-- The tab-strip click handler (app.js line 158) as an operation on ids:
each rendered tab's handler sets the active id to that tab's id and loads
it; handlers exist exactly for the tabs in the current open list, so an
id with no matching tab has no handler and changes nothing. -/
def switchTab (st : EditorState) (id : String) : EditorState :=
  match st.openTabs.find? (fun t => t.id = id) with
  | some t => loadTabContent t { st with activeTabId := some id }
  | none => st

/-- JS `value.split('\n')`: splitting an empty text yields one empty
piece, and a trailing newline yields a trailing empty piece. -/
def splitNl : List Char → List (List Char)
  | [] => [[]]
  | c :: rest =>
    let r := splitNl rest
    if c = '\n' then [] :: r
    else
      match r with
      | [] => [[c]]
      | h :: t => (c :: h) :: t

/-- Source `updateGutter` (app.js lines 289-293): the number of rendered
line entries is `value.split('\n').length || 1` (the `|| 1` branch is
unreachable since a split is never empty). -/
def gutterLineCount (v : List Char) : Nat :=
  let n := (splitNl v).length
  if n = 0 then 1 else n

/-- Index of the last newline of `v`, JS `v.lastIndexOf('\n')` with
`none` for `-1`. -/
def lastIndexOfNl : List Char → Option Nat
  | [] => none
  | c :: rest =>
    match lastIndexOfNl rest with
    | some i => some (i + 1)
    | none => if c = '\n' then some 0 else none

/-- Source `updateCaretStatus` (app.js lines 298-304): with `upto` the
text before the cursor, the line is the number of pieces of
`upto.split('\n')` and the column is `pos - upto.lastIndexOf('\n')`
(which is `pos + 1` on the first line, where `lastIndexOf` is `-1`). -/
def caretStatus (v : List Char) (pos : Nat) : Nat × Nat :=
  let upto := v.take pos
  let line := (splitNl upto).length
  let col :=
    match lastIndexOfNl upto with
    | some i => pos - i
    | none => pos + 1
  (line, col)

/-- The structural tab-key branch of the keydown handler (app.js lines
310-320): the new value is `val.slice(0,start) + '  ' + val.slice(end)`
and both selection ends move to `start + 2`. -/
def tabKeyHandler (val : List Char) (selStart selEnd : Nat) : List Char × Nat :=
  (val.take selStart ++ [' ', ' '] ++ val.drop selEnd, selStart + 2)

/-- The session invariant of claim C7: the active id, when present, is
the id of some open tab, and no two open tabs share a name. -/
def TabInv (st : EditorState) : Prop :=
  (match st.activeTabId with
   | none => True
   | some a => ∃ t ∈ st.openTabs, t.id = a) ∧
  (st.openTabs.map Tab.name).Nodup

/-! Theorems. -/

/-- A character distinct from the replaced character and absent from the
replacement text is in the output of `replaceCharBy` only if it was in
the input. -/
theorem mem_of_mem_replaceCharBy (c : Char) (rep : List Char) (s : List Char)
    (a : Char) (hrep : a ∉ rep)
    (hmem : a ∈ replaceCharBy c rep s) : a ∈ s := by
  induction s with
  | nil => simp [replaceCharBy] at hmem
  | cons x s ih =>
    simp only [replaceCharBy, List.foldr_cons] at hmem
    by_cases hx : x = c
    · rw [if_pos hx] at hmem
      rcases List.mem_append.mp hmem with h | h
      · exact absurd h hrep
      · exact List.mem_cons_of_mem x (ih h)
    · rw [if_neg hx] at hmem
      rcases List.mem_cons.mp hmem with h | h
      · exact h ▸ List.mem_cons_self x s
      · exact List.mem_cons_of_mem x (ih h)

/-- The replaced character itself never survives `replaceCharBy` when it
does not occur in the replacement text. -/
theorem not_mem_replaceCharBy_self (c : Char) (rep : List Char) (s : List Char)
    (hrep : c ∉ rep) : c ∉ replaceCharBy c rep s := by
  induction s with
  | nil => simp [replaceCharBy]
  | cons x s ih =>
    simp only [replaceCharBy, List.foldr_cons]
    by_cases hx : x = c
    · rw [if_pos hx]
      intro hmem
      rcases List.mem_append.mp hmem with h | h
      · exact hrep h
      · exact ih h
    · rw [if_neg hx]
      intro hmem
      rcases List.mem_cons.mp hmem with h | h
      · exact hx h.symm
      · exact ih h

/-- Claim C3 counterexample: for the content `"a\nb\nc"` the caret status
at cursor offset 3 is not line 2, column 1 — the code computes column 2
there (offset 3 sits after the `b`, not just after the first newline). -/
theorem c3_caret_claim_false :
    ¬ (gutterLineCount "a\nb\nc".data = 3 ∧
       caretStatus "a\nb\nc".data 3 = (2, 1)) := by
  intro h
  exact absurd h.2 (by decide)

/-- Claim C3 amended: the gutter line count for `"a\nb\nc"` is 3; the
caret status at offset 3 is line 2, column 2, and the position just
after `"a\n"`, offset 2, is the one that yields line 2, column 1. -/
theorem c3_gutter_and_caret :
    gutterLineCount "a\nb\nc".data = 3 ∧
    caretStatus "a\nb\nc".data 3 = (2, 2) ∧
    caretStatus "a\nb\nc".data 2 = (2, 1) := by
  refine ⟨by decide, by decide, by decide⟩

/-- Claim C4: the CSS comment pattern never fires on an ordinary block
comment — its terminator, as the spec's design note records, is the
malformed literal `*/g` — so `highlightCSS` leaves `"/* x */"` unchanged
and emits no comment-class span; a comment whose `*/` is immediately
followed by a literal `g` character is the only shape that is wrapped. -/
theorem css_block_comment_not_wrapped :
    highlightCSS "/* x */" = "/* x */" ∧
    occursIn "token-comment".data (highlightCSSL "/* x */".data) = false ∧
    occursIn "token-comment".data (highlightCSSL "/* x */g".data) = true := by
  refine ⟨rfl, by decide, by decide⟩

/-- Claim C5: when `closeTab` removes the currently active tab, found at
index `idx` of the open sequence, the new active id is the id of the tab
immediately preceding the removed one in the original sequence; when the
removed tab was first, the id of the new first tab; and `none` when no
tab remains (the option `map` makes the last two cases one branch). -/
theorem closeTab_active_picks_previous (st : EditorState) (id : String) (idx : Nat)
    (hidx : st.openTabs.findIdx? (fun t => t.id = id) = some idx)
    (hact : st.activeTabId = some id) :
    (closeTab st id).activeTabId =
      (if idx = 0 then ((st.openTabs.eraseIdx 0)[0]?).map Tab.id
       else (st.openTabs[idx - 1]?).map Tab.id) := by
  have hlt : idx < st.openTabs.length :=
    (List.findIdx?_eq_some_iff_findIdx_eq.mp hidx).1
  unfold closeTab
  rw [hidx]
  dsimp only
  rw [if_pos hact]
  by_cases h0 : idx = 0
  · subst h0
    rw [if_pos rfl, if_pos rfl]
    cases hg : (st.openTabs.eraseIdx 0)[0]? with
    | none => simp
    | some t =>
      dsimp only
      cases hfd : (st.openTabs.eraseIdx 0).find? (fun u => u.id = t.id) with
      | none => simp
      | some u => simp [loadTabContent]
  · rw [if_neg h0, if_neg h0]
    have he : (st.openTabs.eraseIdx idx)[idx - 1]? = st.openTabs[idx - 1]? :=
      List.getElem?_eraseIdx_of_lt _ _ _ (by omega)
    rw [he]
    have hk : idx - 1 < st.openTabs.length := by omega
    rw [List.getElem?_eq_getElem hk]
    dsimp only
    cases hfd : (st.openTabs.eraseIdx idx).find?
        (fun u => u.id = (st.openTabs[idx - 1]).id) with
    | none => simp
    | some u => simp [loadTabContent]

/-- Claim C5 witness: closing the active middle tab of three makes the
tab before it active. -/
theorem closeTab_active_picks_previous_witness :
    (closeTab ⟨[⟨"id1", "a.js", "js", "x"⟩, ⟨"id2", "b.css", "css", "y"⟩,
        ⟨"id3", "c.md", "md", "z"⟩], some "id2", "y".data, "b.css", "CSS"⟩
      "id2").activeTabId = some "id1" :=
  (closeTab_active_picks_previous
    ⟨[⟨"id1", "a.js", "js", "x"⟩, ⟨"id2", "b.css", "css", "y"⟩,
        ⟨"id3", "c.md", "md", "z"⟩], some "id2", "y".data, "b.css", "CSS"⟩
    "id2" 1 (by decide) rfl).trans (by decide)

/-- The invariant is preserved by `openFileTab`: activating an existing
tab keeps the list, and a created tab carries the fresh active id and a
name that was not yet open. -/
theorem tabInv_openFileTab (fresh : String) (st : EditorState) (node : FileNode)
    (h : TabInv st) : TabInv (openFileTab fresh st node) := by
  obtain ⟨hact, hnames⟩ := h
  unfold openFileTab
  cases hf : st.openTabs.find? (fun u => u.name = node.name) with
  | some t =>
    refine ⟨⟨t, List.mem_of_find?_eq_some hf, rfl⟩, ?_⟩
    simpa [loadTabContent] using hnames
  | none =>
    constructor
    · exact ⟨_, List.mem_append_right _ (List.mem_singleton.mpr rfl), rfl⟩
    · simp only [createTab, loadTabContent, List.map_append, List.map_cons,
        List.map_nil]
      rw [List.nodup_append]
      refine ⟨hnames, List.nodup_singleton _, ?_⟩
      intro a ha hb
      simp only [List.mem_singleton] at hb
      subst hb
      obtain ⟨u, hu, huname⟩ := List.mem_map.mp ha
      exact absurd (by simpa using huname)
        (by simpa using List.find?_eq_none.mp hf u hu)

/-- The invariant is preserved by `closeTab`: a surviving active id
still names a surviving tab, a recomputed active id is read off the
remaining list, and erasing an index keeps the names duplicate-free. -/
theorem tabInv_closeTab (st : EditorState) (id : String)
    (h : TabInv st) : TabInv (closeTab st id) := by
  obtain ⟨hact, hnames⟩ := h
  unfold closeTab
  cases hidx : st.openTabs.findIdx? (fun t => t.id = id) with
  | none => exact ⟨hact, hnames⟩
  | some idx =>
    obtain ⟨hlt, hfind⟩ := List.findIdx?_eq_some_iff_findIdx_eq.mp hidx
    have hpid : st.openTabs[idx].id = id := by
      have := @List.findIdx_getElem _ (fun t => decide (t.id = id))
        st.openTabs (hfind.symm ▸ hlt)
      simpa [hfind] using this
    have hnames' : ((st.openTabs.eraseIdx idx).map Tab.name).Nodup :=
      ((List.eraseIdx_sublist st.openTabs idx).map Tab.name).nodup hnames
    dsimp only
    by_cases ha : st.activeTabId = some id
    · rw [if_pos ha]
      cases hprev : (if idx = 0 then none
          else (st.openTabs.eraseIdx idx)[idx - 1]?) with
      | some t =>
        have ht : t ∈ st.openTabs.eraseIdx idx := by
          rcases Nat.eq_zero_or_pos idx with h0 | h0
          · rw [if_pos h0] at hprev; cases hprev
          · rw [if_neg (by omega)] at hprev
            exact List.getElem?_mem hprev
        dsimp only
        cases hfd : (st.openTabs.eraseIdx idx).find? (fun u => u.id = t.id) with
        | none => exact ⟨⟨t, ht, rfl⟩, hnames'⟩
        | some u =>
          exact ⟨⟨t, ht, rfl⟩, by simpa [loadTabContent] using hnames'⟩
      | none =>
        dsimp only
        cases h0 : (st.openTabs.eraseIdx idx)[0]? with
        | some t =>
          have ht : t ∈ st.openTabs.eraseIdx idx := List.getElem?_mem h0
          dsimp only
          cases hfd : (st.openTabs.eraseIdx idx).find? (fun u => u.id = t.id) with
          | none => exact ⟨⟨t, ht, rfl⟩, hnames'⟩
          | some u =>
            exact ⟨⟨t, ht, rfl⟩, by simpa [loadTabContent] using hnames'⟩
        | none => exact ⟨trivial, hnames'⟩
    · rw [if_neg ha]
      refine ⟨?_, hnames'⟩
      cases hv : st.activeTabId with
      | none => trivial
      | some a =>
        rw [hv] at hact ha
        obtain ⟨t, ht, hta⟩ := hact
        obtain ⟨i, hi⟩ := List.mem_iff_getElem?.mp ht
        refine ⟨t, ?_, hta⟩
        rw [List.mem_eraseIdx_iff_getElem?]
        refine ⟨i, fun hie => ?_, hi⟩
        subst hie
        rw [List.getElem?_eq_getElem hlt] at hi
        have hti : st.openTabs[i] = t := Option.some.inj hi
        apply ha
        rw [← hta, ← hti, hpid]

/-- The invariant is preserved by the tab-strip switch handler: it only
activates the id of a tab found in the open list. -/
theorem tabInv_switchTab (st : EditorState) (id : String)
    (h : TabInv st) : TabInv (switchTab st id) := by
  obtain ⟨hact, hnames⟩ := h
  unfold switchTab
  cases hf : st.openTabs.find? (fun t => t.id = id) with
  | none => exact ⟨hact, hnames⟩
  | some t =>
    refine ⟨⟨t, List.mem_of_find?_eq_some hf, ?_⟩, ?_⟩
    · simpa using List.find?_some hf
    · simpa [loadTabContent] using hnames

/-- Claim C7: the session invariant — the active id is null or the id of
an open tab, and open tab names are pairwise distinct — is preserved by
opening a file, closing a tab and switching tabs. -/
theorem operations_preserve_tabInv (st : EditorState) (fresh : String)
    (node : FileNode) (id : String) (h : TabInv st) :
    TabInv (openFileTab fresh st node) ∧ TabInv (closeTab st id) ∧
      TabInv (switchTab st id) :=
  ⟨tabInv_openFileTab fresh st node h, tabInv_closeTab st id h,
    tabInv_switchTab st id h⟩

/-- Claim C7 witness: the invariant holds of a concrete two-tab state
and is preserved by a concrete open, close and switch. -/
theorem operations_preserve_tabInv_witness :
    TabInv (openFileTab "f9"
      ⟨[⟨"id1", "a.js", "js", "x"⟩, ⟨"id2", "b.css", "css", "y"⟩],
        some "id1", "x".data, "a.js", "JS"⟩ ⟨"c.md", none, none⟩) ∧
    TabInv (closeTab
      ⟨[⟨"id1", "a.js", "js", "x"⟩, ⟨"id2", "b.css", "css", "y"⟩],
        some "id1", "x".data, "a.js", "JS"⟩ "id1") ∧
    TabInv (switchTab
      ⟨[⟨"id1", "a.js", "js", "x"⟩, ⟨"id2", "b.css", "css", "y"⟩],
        some "id1", "x".data, "a.js", "JS"⟩ "id1") :=
  operations_preserve_tabInv
    ⟨[⟨"id1", "a.js", "js", "x"⟩, ⟨"id2", "b.css", "css", "y"⟩],
      some "id1", "x".data, "a.js", "JS"⟩ "f9" ⟨"c.md", none, none⟩ "id1"
    ⟨⟨⟨"id1", "a.js", "js", "x"⟩, by decide, rfl⟩, by decide⟩

/-- Claim C6: when a tab whose name equals the node's name is already
open, `openFileTab` keeps the open-tab list unchanged (so no new tab is
created) and makes the existing matching tab the active one. -/
theorem openFileTab_existing_activates (fresh : String) (st : EditorState)
    (node : FileNode) (t : Tab)
    (h : st.openTabs.find? (fun u => u.name = node.name) = some t) :
    (openFileTab fresh st node).openTabs = st.openTabs ∧
    (openFileTab fresh st node).activeTabId = some t.id := by
  unfold openFileTab
  rw [h]
  exact ⟨rfl, rfl⟩

/-- Claim C6 witness: opening `b.css` while a tab named `b.css` is open
leaves the two open tabs as they are and activates the existing tab. -/
theorem openFileTab_existing_activates_witness :
    (openFileTab "f9"
      ⟨[⟨"id1", "a.js", "js", "x"⟩, ⟨"id2", "b.css", "css", "y"⟩],
        some "id1", "x".data, "a.js", "JS"⟩
      ⟨"b.css", none, none⟩).openTabs =
        [⟨"id1", "a.js", "js", "x"⟩, ⟨"id2", "b.css", "css", "y"⟩] ∧
    (openFileTab "f9"
      ⟨[⟨"id1", "a.js", "js", "x"⟩, ⟨"id2", "b.css", "css", "y"⟩],
        some "id1", "x".data, "a.js", "JS"⟩
      ⟨"b.css", none, none⟩).activeTabId = some "id2" :=
  openFileTab_existing_activates "f9"
    ⟨[⟨"id1", "a.js", "js", "x"⟩, ⟨"id2", "b.css", "css", "y"⟩],
      some "id1", "x".data, "a.js", "JS"⟩
    ⟨"b.css", none, none⟩ ⟨"id2", "b.css", "css", "y"⟩ (by decide)

/-- Claim C8: closing the only open tab (which is active) yields the
empty tab list, no active id, an empty text surface whose gutter shows
exactly one line entry, and the no-file status — a fully populated
state, not a failure. -/
theorem closeTab_last_tab_clears (st : EditorState) (t : Tab)
    (h1 : st.openTabs = [t]) (h2 : st.activeTabId = some t.id) :
    (closeTab st t.id).openTabs = [] ∧
    (closeTab st t.id).activeTabId = none ∧
    (closeTab st t.id).editorValue = [] ∧
    gutterLineCount (closeTab st t.id).editorValue = 1 ∧
    (closeTab st t.id).statusFile = "No file" := by
  cases st with
  | mk tabs act v sf sm =>
    simp only at h1 h2
    subst h1; subst h2
    simp [closeTab, List.findIdx?_cons, gutterLineCount, splitNl]

/-- Claim C8 witness: closing the single open tab of a concrete state. -/
theorem closeTab_last_tab_clears_witness :
    (closeTab ⟨[⟨"id1", "a.js", "js", "x"⟩], some "id1", "x".data, "a.js", "JS"⟩
      "id1").openTabs = [] ∧
    (closeTab ⟨[⟨"id1", "a.js", "js", "x"⟩], some "id1", "x".data, "a.js", "JS"⟩
      "id1").activeTabId = none ∧
    (closeTab ⟨[⟨"id1", "a.js", "js", "x"⟩], some "id1", "x".data, "a.js", "JS"⟩
      "id1").editorValue = [] ∧
    gutterLineCount (closeTab
      ⟨[⟨"id1", "a.js", "js", "x"⟩], some "id1", "x".data, "a.js", "JS"⟩
      "id1").editorValue = 1 ∧
    (closeTab ⟨[⟨"id1", "a.js", "js", "x"⟩], some "id1", "x".data, "a.js", "JS"⟩
      "id1").statusFile = "No file" :=
  closeTab_last_tab_clears
    ⟨[⟨"id1", "a.js", "js", "x"⟩], some "id1", "x".data, "a.js", "JS"⟩
    ⟨"id1", "a.js", "js", "x"⟩ rfl rfl

/-- Claim C9: closing an id that matches no open tab changes nothing at
all — the state (open tabs, active id, text surface, status) is returned
as is, and `closeTab` is total, so no error is possible. -/
theorem closeTab_unknown_id_noop (st : EditorState) (id : String)
    (h : ∀ t ∈ st.openTabs, t.id ≠ id) : closeTab st id = st := by
  unfold closeTab
  have hnone : st.openTabs.findIdx? (fun t => t.id = id) = none := by
    rw [List.findIdx?_eq_none_iff]
    intro x hx
    simpa using h x hx
  rw [hnone]

/-- Claim C9 witness: closing the id `nope`, open tabs being `id1` and
`id2`, returns the state unchanged. -/
theorem closeTab_unknown_id_noop_witness :
    closeTab ⟨[⟨"id1", "a.js", "js", "x"⟩, ⟨"id2", "b.css", "css", "y"⟩],
      some "id1", "x".data, "a.js", "JS"⟩ "nope" =
    ⟨[⟨"id1", "a.js", "js", "x"⟩, ⟨"id2", "b.css", "css", "y"⟩],
      some "id1", "x".data, "a.js", "JS"⟩ :=
  closeTab_unknown_id_noop
    ⟨[⟨"id1", "a.js", "js", "x"⟩, ⟨"id2", "b.css", "css", "y"⟩],
      some "id1", "x".data, "a.js", "JS"⟩ "nope" (by decide)

/-- Claim C10: for any text and selection range, the tab-key branch
keeps the prefix before the selection start, places exactly two spaces
there (collapsing the selected range), continues with the text after the
selection end, and puts the caret at start + 2; the length accounting
shows exactly two characters were inserted for the removed range. -/
theorem tab_key_inserts_two_spaces (val : List Char) (s e : Nat)
    (hse : s ≤ e) (hel : e ≤ val.length) :
    (tabKeyHandler val s e).1.take s = val.take s ∧
    ((tabKeyHandler val s e).1)[s]? = some ' ' ∧
    ((tabKeyHandler val s e).1)[s + 1]? = some ' ' ∧
    (tabKeyHandler val s e).1.drop (s + 2) = val.drop e ∧
    (tabKeyHandler val s e).2 = s + 2 ∧
    (tabKeyHandler val s e).1.length = val.length - (e - s) + 2 := by
  have hsl : s ≤ val.length := le_trans hse hel
  have hlen : (val.take s).length = s := by
    rw [List.length_take]; omega
  have hv : (tabKeyHandler val s e).1
      = val.take s ++ ([' '] ++ ([' '] ++ val.drop e)) := by
    simp [tabKeyHandler]
  refine ⟨?_, ?_, ?_, ?_, rfl, ?_⟩
  · rw [hv, List.take_append_eq_append_take, hlen, Nat.sub_self]
    simp [List.take_take]
  · rw [hv, List.getElem?_append_right (by rw [hlen])]
    rw [hlen, Nat.sub_self]
    simp
  · rw [hv, List.getElem?_append_right (by rw [hlen]; omega)]
    rw [hlen]
    have h1 : s + 1 - s = 1 := by omega
    rw [h1]
    simp
  · rw [hv, List.drop_append_eq_append_drop, hlen]
    have h0 : List.drop (s + 2) (List.take s val) = [] :=
      List.drop_eq_nil_of_le (by omega)
    have h2 : s + 2 - s = 2 := by omega
    rw [h0, h2]
    rfl
  · rw [hv]
    simp only [List.length_append, hlen, List.length_cons, List.length_nil,
      List.length_drop]
    omega

set_option maxRecDepth 40000 in
/-- Claim C1 counterexample: for the JS input `const x = 5; // hi` the
output does not contain all three intact span-wrapped tokens: the number
span around `5` is not present intact (and neither is the comment span),
because the keyword pass re-matches inside previously inserted markup. -/
theorem highlightJS_three_spans_not_intact :
    ¬ (occursIn "<span class=\"token-keyword\">const</span>".data
          (highlightJSL "const x = 5; // hi".data) = true ∧
       occursIn "<span class=\"token-number\">5</span>".data
          (highlightJSL "const x = 5; // hi".data) = true ∧
       occursIn "<span class=\"token-comment\">// hi</span>".data
          (highlightJSL "const x = 5; // hi".data) = true) := by
  intro h
  exact absurd h.2.1 (by decide)

set_option maxRecDepth 40000 in
/-- Claim C1 amended: the keyword span around `const` is intact, but the
number and comment span wrappers are not: the string pass wraps the
`"token-comment"` class attribute of the comment span inserted before
it, and the keyword pass wraps the word `class` inside inserted opening
tags, splitting them.  The exact output is given by the first conjunct. -/
theorem highlightJS_const_five_comment :
    highlightJS "const x = 5; // hi" =
      "<span class=\"token-keyword\">const</span> x = <span <span class=\"token-keyword\">class</span>=\"token-number\">5</span>; <span <span class=\"token-keyword\">class</span>=<span <span class=\"token-keyword\">class</span>=\"token-string\">\"token-comment\"</span>>// hi</span>" ∧
    occursIn "<span class=\"token-keyword\">const</span>".data
      (highlightJSL "const x = 5; // hi".data) = true ∧
    occursIn "<span class=\"token-number\">5</span>".data
      (highlightJSL "const x = 5; // hi".data) = false ∧
    occursIn "<span class=\"token-comment\">// hi</span>".data
      (highlightJSL "const x = 5; // hi".data) = false := by
  refine ⟨rfl, by decide, by decide, by decide⟩

/-- Claim C2 counterexample: the js input `a < 5` contains a raw `<`;
after the scan that removes every span tag the highlighter inserts, the
output still holds a raw `<` and a raw `>` — the keyword pass wrapped
the word `class` inside the span tag inserted by the number pass,
splitting that tag, so bracket characters remain outside every intact
inserted span tag. -/
theorem highlight_raw_brackets_outside_tags :
    '<' ∈ "a < 5".data ∧
    '<' ∈ stripSpans (highlightByModeL "a < 5".data "js") ∧
    '>' ∈ stripSpans (highlightByModeL "a < 5".data "js") := by
  refine ⟨by decide, by decide, by decide⟩

/-- Claim C2 amended: every tokenizer escapes before inserting any span:
the escaped text contains no raw angle bracket at all; each highlighter
is its substitution passes applied to `escapeHtml` of the input; and for
any unknown language tag the output is exactly the escaped text, hence
free of raw brackets.  Raw brackets in js/css/html outputs therefore
stem only from inserted span markup — which later passes may split, as
the counterexample shows, so they need not sit inside intact tags. -/
theorem highlighters_escape_before_spans :
    (∀ code : List Char, '<' ∉ escapeHtmlL code ∧ '>' ∉ escapeHtmlL code) ∧
    (∀ code : List Char,
      highlightJSL code =
        applyPass (fun p _ s => jsKeywordAt p s)
          (applyPass (fun p _ s => jsNumberAt p s)
            (applyPass (fun _ _ s => jsStringAt s)
              (applyPass (fun _ _ s => jsCommentAt s) (escapeHtmlL code)))) ∧
      highlightCSSL code =
        applyPass (fun _ _ s => cssUnitAt s)
          (applyPass (fun _ _ s => cssValueAt s)
            (applyPass (fun _ _ s => cssPropAt s)
              (applyPass (fun _ _ s => cssTagAt s)
                (applyPass (fun _ _ s => cssCommentAt s) (escapeHtmlL code))))) ∧
      highlightHTMLL code =
        applyPass (fun _ _ s => htmlScriptAt s)
          (applyPass (fun _ p s => htmlTagAt p s)
            (applyPass (fun _ _ s => htmlCommentAt s) (escapeHtmlL code)))) ∧
    (∀ code : List Char, ∀ mode : String,
      mode ≠ "js" → mode ≠ "css" → mode ≠ "html" →
      '<' ∉ highlightByModeL code mode ∧ '>' ∉ highlightByModeL code mode) := by
  have hlt : ∀ code : List Char, '<' ∉ escapeHtmlL code := by
    intro code h
    have h1 : '<' ∈ replaceCharBy '<' "&lt;".data
        (replaceCharBy '&' "&amp;".data code) :=
      mem_of_mem_replaceCharBy '>' "&gt;".data _ '<' (by decide) h
    exact not_mem_replaceCharBy_self '<' "&lt;".data _ (by decide) h1
  have hgt : ∀ code : List Char, '>' ∉ escapeHtmlL code := by
    intro code
    exact not_mem_replaceCharBy_self '>' "&gt;".data _ (by decide)
  refine ⟨fun code => ⟨hlt code, hgt code⟩, fun code => ⟨rfl, rfl, rfl⟩, ?_⟩
  intro code mode h1 h2 h3
  have hmode : highlightByModeL code mode = escapeHtmlL code := by
    unfold highlightByModeL
    rw [if_neg h1, if_neg h2, if_neg h3]
  rw [hmode]
  exact ⟨hlt code, hgt code⟩

/-- Claim C2 amended witness: the fallback tag `plaintext` on a text
containing all three special characters yields bracket-free output. -/
theorem highlighters_escape_before_spans_witness :
    '<' ∉ highlightByModeL "a<b>&c".data "plaintext" ∧
    '>' ∉ highlightByModeL "a<b>&c".data "plaintext" :=
  highlighters_escape_before_spans.2.2 "a<b>&c".data "plaintext"
    (by decide) (by decide) (by decide)

/-- Claim C10 witness: inserting at selection 2..4 of `abcdef`. -/
theorem tab_key_inserts_two_spaces_witness :
    (tabKeyHandler "abcdef".data 2 4).1.take 2 = "abcdef".data.take 2 ∧
    ((tabKeyHandler "abcdef".data 2 4).1)[2]? = some ' ' ∧
    ((tabKeyHandler "abcdef".data 2 4).1)[2 + 1]? = some ' ' ∧
    (tabKeyHandler "abcdef".data 2 4).1.drop (2 + 2) = "abcdef".data.drop 4 ∧
    (tabKeyHandler "abcdef".data 2 4).2 = 2 + 2 ∧
    (tabKeyHandler "abcdef".data 2 4).1.length = "abcdef".data.length - (4 - 2) + 2 :=
  tab_key_inserts_two_spaces "abcdef".data 2 4 (by decide) (by decide)

end Bina
